import Mathlib

/-
Shallow embedding of the rust-snake game (src/main.rs).

Rust `i32` grid coordinates are modelled as `Int` (no claim here involves
i32 overflow), `u32` counters as `Nat`.  The randomness of
`rand::thread_rng().gen_range` is modelled by an explicit sample stream
`stream : Nat -> Pos`; the RNG contract (each sample lies in the half-open
ranges `-width/2 .. width/2` and `-height/2 .. height/2` produced by
`gen_range`) is stated as the predicate `inGenRange` where a theorem needs
it.  The unbounded retry loop of `place_food` is modelled with explicit
fuel, returning `Option`.
-/

/-- Game-cell position (`struct Pos<T>` instantiated at `i32`). -/
structure Pos where
  x : Int
  y : Int
deriving DecidableEq, Repr, Inhabited

/-- `struct World` from the source. -/
structure World where
  width : Nat
  height : Nat
  block_size : Nat
  food_pos : Pos
deriving DecidableEq, Repr

/-- The set of positions `gen_range(-width..width) x gen_range(-height..height)`
can produce in `World::place_food`, where `width = self.width as i32 / 2`
and `height = self.height as i32 / 2`.  Note both ranges are half-open and
include their lower bound. -/
def inGenRange (w : World) (p : Pos) : Prop :=
  -((w.width : Int) / 2) ≤ p.x ∧ p.x < (w.width : Int) / 2 ∧
  -((w.height : Int) / 2) ≤ p.y ∧ p.y < (w.height : Int) / 2

instance (w : World) (p : Pos) : Decidable (inGenRange w p) := by
  unfold inGenRange; infer_instance

/-- The grid cells samplable by `place_food`, as a finite set. -/
def gridCells (w : World) : Finset Pos :=
  ((Finset.Ico (-((w.width : Int) / 2)) ((w.width : Int) / 2)) ×ˢ
   (Finset.Ico (-((w.height : Int) / 2)) ((w.height : Int) / 2))).image
    (fun q => Pos.mk q.1 q.2)

/-- The retry loop of `World::place_food`: starting at stream index `k`,
keep drawing samples while they are in the blacklist.  `fuel` bounds the
number of iterations we inspect; the Rust loop has no bound, so
termination claims are statements that some finite fuel suffices. -/
def sampleLoop (bl : List Pos) (stream : Nat → Pos) : Nat → Nat → Option Pos
  | _, 0 => none
  | k, fuel + 1 =>
    if stream k ∈ bl then sampleLoop bl stream (k + 1) fuel
    else some (stream k)

/-- `World::place_food(blacklist)`: repeatedly sample until the sample is
not in the blacklist, then assign it to `food_pos`. -/
def World.place_food (w : World) (bl : List Pos) (stream : Nat → Pos)
    (fuel : Nat) : Option World :=
  (sampleLoop bl stream 0 fuel).map (fun p => { w with food_pos := p })

/-- `World::new(width, height, block_size)`: build the world with a dummy
food position, then `place_food(&[])`. -/
def World.new (width height block_size : Nat) (stream : Nat → Pos)
    (fuel : Nat) : Option World :=
  World.place_food ⟨width, height, block_size, ⟨0, 0⟩⟩ [] stream fuel

/-- `enum Direction`. -/
inductive Direction
  | Up
  | Down
  | Left
  | Right
deriving DecidableEq, Repr

/-- The 180-degree opposite of a direction. -/
def opposite : Direction → Direction
  | Direction.Up => Direction.Down
  | Direction.Down => Direction.Up
  | Direction.Left => Direction.Right
  | Direction.Right => Direction.Left

/-- The direction-resolution `match` at the top of `SlitherySnek::slither`:
a requested direction is adopted unless it is the exact opposite of the
current one; `None` keeps the current direction. -/
def resolveDir (cur : Direction) : Option Direction → Direction
  | some Direction.Up => if cur = Direction.Down then cur else Direction.Up
  | some Direction.Down => if cur = Direction.Up then cur else Direction.Down
  | some Direction.Left => if cur = Direction.Right then cur else Direction.Left
  | some Direction.Right => if cur = Direction.Left then cur else Direction.Right
  | none => cur

/-- The `match` in `slither` computing the pushed head: one cell in the
given direction (grid y grows upward). -/
def step (d : Direction) (p : Pos) : Pos :=
  match d with
  | Direction.Up => ⟨p.x, p.y + 1⟩
  | Direction.Down => ⟨p.x, p.y - 1⟩
  | Direction.Left => ⟨p.x - 1, p.y⟩
  | Direction.Right => ⟨p.x + 1, p.y⟩

/-- `struct SlitherySnek`.  The `VecDeque` body is a list, front = head. -/
structure SlitherySnek where
  body : List Pos
  dir : Direction
  world : World
  grow_buf : Nat
  initial_size : Nat
deriving DecidableEq, Repr

/-- `SlitherySnek::new(len, world)`: push_front the positions `(i, 0)` for
`i in 0..len`, so the head ends at `(len-1, 0)`; direction Right. -/
def SlitherySnek.new (len : Nat) (world : World) : SlitherySnek :=
  { body := (List.range len).foldl (fun b i => Pos.mk i 0 :: b) []
    dir := Direction.Right
    world := world
    grow_buf := 0
    initial_size := len }

/-- `SlitherySnek::check_dead`.  `self.body[0]` is modelled by `headI`
(the source indexing panics on an empty body; all claims about this
function assume a non-empty body). -/
def SlitherySnek.check_dead (s : SlitherySnek) : Bool :=
  let width : Int := (s.world.width : Int) / 2
  let height : Int := (s.world.height : Int) / 2
  let head := s.body.headI
  if ¬(-width ≤ head.x ∧ head.x < width) ∨ ¬(-height ≤ head.y ∧ head.y < height) then
    true
  else
    s.body.tail.any (fun p => p = head)

/-- `SlitherySnek::slither(dir)`.  The food-reposition sample is abstracted
by the oracle `choose : List Pos -> Pos`, standing for the value
`World::place_food` assigns given the blacklist (the retry loop itself is
modelled by `sampleLoop`); `pop_back` is `dropLast`. -/
def SlitherySnek.slither (s : SlitherySnek) (choose : List Pos → Pos)
    (dir : Option Direction) : SlitherySnek :=
  let newDir := resolveDir s.dir dir
  let head := s.body.headI
  let body1 := step newDir head :: s.body
  let world1 :=
    if s.world.food_pos = head then { s.world with food_pos := choose body1 }
    else s.world
  let buf1 := if s.world.food_pos = head then 3 else s.grow_buf
  let body2 := if 0 < buf1 then body1 else body1.dropLast
  let buf2 := if 0 < buf1 then buf1 - 1 else buf1
  { s with body := body2, dir := newDir, world := world1, grow_buf := buf2 }

/-- Iterate `slither` over a list of per-tick direction inputs. -/
def slitherTrace (choose : List Pos → Pos) (s : SlitherySnek) :
    List (Option Direction) → SlitherySnek
  | [] => s
  | d :: ds => slitherTrace choose (s.slither choose d) ds

/-- Number of ticks along the trace on which the food trigger fires
(`self.world.food_pos == head`, the head before this tick's push). -/
def eatenCount (choose : List Pos → Pos) (s : SlitherySnek) :
    List (Option Direction) → Nat
  | [] => 0
  | d :: ds =>
    (if s.world.food_pos = s.body.headI then 1 else 0) +
      eatenCount choose (s.slither choose d) ds

/-- The trace never fires the food trigger while growth is still pending
(`grow_buf > 0` at the moment of the trigger). -/
def cleanGrowth (choose : List Pos → Pos) (s : SlitherySnek) :
    List (Option Direction) → Bool
  | [] => true
  | d :: ds =>
    (!(decide (s.world.food_pos = s.body.headI)) || decide (s.grow_buf = 0)) &&
      cleanGrowth choose (s.slither choose d) ds

/-- No input along the trace requests the exact opposite of the current
direction at that tick. -/
def nonReversing (choose : List Pos → Pos) (s : SlitherySnek) :
    List (Option Direction) → Bool
  | [] => true
  | d :: ds =>
    (match d with
     | some r => decide (r ≠ opposite s.dir)
     | none => true) &&
      nonReversing choose (s.slither choose d) ds

/-- The keyboard-input buffering in `main`: push an entry when the queue
has fewer than 2 entries and does not already contain it, otherwise clear
the queue and push just the new entry. -/
def pushInput (q : List (Option Direction)) (d : Option Direction) :
    List (Option Direction) :=
  if q.length < 2 ∧ d ∉ q then q ++ [d] else [d]

/-- Modelled from the spec: "within the open grid bounds
`(-width/2, width/2) x (-height/2, height/2)`", read as the open interval
excluding both endpoints.  Stated only to compare with what the code does
(`inGenRange`, which includes the lower endpoints). -/
def specOpenBounds (w : World) (p : Pos) : Prop :=
  -((w.width : Int) / 2) < p.x ∧ p.x < (w.width : Int) / 2 ∧
  -((w.height : Int) / 2) < p.y ∧ p.y < (w.height : Int) / 2

instance (w : World) (p : Pos) : Decidable (specOpenBounds w p) := by
  unfold specOpenBounds; infer_instance

/-
Rendering model.  The pixel framebuffer is abstracted by its byte length;
`access_pixel` returns the RGBA start index when the 4-byte slice
`index..index+4` fits, mirroring `get_frame().get_mut(index..index+4)`,
and `none` otherwise.  Pixel coordinates are `u32` in the source, so the
`as u32` casts and `u32` wrap-around arithmetic are modelled explicitly
(release-mode semantics; in a debug build the wrapping subtraction below
panics outright, which only makes the failure earlier).
-/

/-- `PixelExt::access_pixel` on a frame of `frameLen` bytes. -/
def access_pixel (width frameLen x y : Nat) : Option Nat :=
  let index := (y * width + x) * 4
  if index + 4 ≤ frameLen then some index else none

/-- The `as u32` cast of an `i32` value: two-complement reinterpretation. -/
def u32_cast (n : Int) : Nat := (n % (2 ^ 32 : Int)).toNat

/-- `u32` wrapping addition. -/
def u32_add (a b : Nat) : Nat := (a + b) % 2 ^ 32

/-- `u32` wrapping subtraction (for arguments below `2^32`). -/
def u32_sub (a b : Nat) : Nat := (a + 2 ^ 32 - b) % 2 ^ 32

/-- The body-segment square blit in `SlitherySnek::draw`: for `y` and `x`
in `0..block_size-3`, write the pixel at `(b.x+x, b.y-y)` through
`access_pixel(..).expect(..)`.  The `expect` turns a missed write into a
panic, modelled as `none`. -/
def blitSquare (width frameLen block bx py : Nat) : Option Unit :=
  (List.range (block - 3)).forM (fun y =>
    (List.range (block - 3)).forM (fun x =>
      match access_pixel width frameLen (u32_add bx x) (u32_sub py y) with
      | some _ => some ()
      | none => none))

/-- `World::draw`: computes the border rectangle and silently returns when
it falls outside the viewport; every border and food pixel write goes
through `access_pixel(..).and_then(..)`, which discards a missed write
instead of failing, so the function never fails. -/
def World.draw (w : World) (winW winH _frameLen : Nat) : Option Unit :=
  let bottom : Int := ((w.height * w.block_size / 2 : Nat) : Int) + ((winH / 2 : Nat) : Int) + 2
  let right : Int := ((w.width * w.block_size / 2 : Nat) : Int) + ((winW / 2 : Nat) : Int) - 2
  let top : Int := ((winH / 2 : Nat) : Int) - ((w.height * w.block_size / 2 : Nat) : Int) + 2
  let left : Int := ((winW / 2 : Nat) : Int) - ((w.width * w.block_size / 2 : Nat) : Int) - 2
  if ¬(0 ≤ right ∧ right < (winW : Int)) ∨ ¬(0 ≤ left ∧ left < (winW : Int)) ∨
     ¬(0 ≤ top ∧ top < (winH : Int)) ∨ ¬(0 ≤ bottom ∧ bottom < (winH : Int)) then
    some ()
  else
    some ()

/-- `SlitherySnek::draw`: draw the world, then for each body segment map
its grid position to a pixel position, skip the segment when the mapped
position is outside the viewport, and otherwise blit its square through
the panicking `expect` path. -/
def SlitherySnek.draw (s : SlitherySnek) (winW winH frameLen : Nat) : Option Unit := do
  s.world.draw winW winH frameLen
  s.body.forM (fun b =>
    let bx := u32_cast (b.x * (s.world.block_size : Int) + ((winW / 2 : Nat) : Int))
    let py := u32_cast (-b.y * (s.world.block_size : Int) + ((winH / 2 : Nat) : Int))
    if bx < winW ∧ py < winH then
      blitSquare winW frameLen s.world.block_size bx py
    else
      some ())

/-
Concrete exemplar states, used by counterexamples and witnesses.
`w40` and `snek0` match the startup configuration of `main`
(grid 40 x 40, block 20, initial length 3), with the food at `(3, 0)`,
one cell ahead of the initial head `(2, 0)` - a position `place_food`
can legitimately produce.
-/

/-- The startup world with food at `(3, 0)`. -/
def w40 : World := ⟨40, 40, 20, ⟨3, 0⟩⟩

/-- The startup snake: body `[(2,0), (1,0), (0,0)]`, heading Right. -/
def snek0 : SlitherySnek := SlitherySnek.new 3 w40

/-- A placement oracle that puts the food two cells ahead of the head at
the first trigger (blacklist of 4 segments) and far away afterwards; both
samples are legitimate `place_food` results for the blacklists involved. -/
def chooseCE : List Pos → Pos :=
  fun bl => if bl.length = 4 then ⟨5, 0⟩ else ⟨10, 10⟩

/-- A placement oracle returning a fixed in-range, off-body cell. -/
def chConst : List Pos → Pos := fun _ => ⟨10, 10⟩

/-- A snake whose head sits on the boundary cell `x = -20` of the 40-wide
grid (reachable by slithering Left from the start). -/
def snekBoundary : SlitherySnek :=
  ⟨[⟨-20, 0⟩, ⟨-19, 0⟩], Direction.Left, ⟨40, 40, 20, ⟨5, 5⟩⟩, 0, 3⟩

/-- A snake whose body is a single segment. -/
def snekSingle : SlitherySnek :=
  ⟨[⟨0, 0⟩], Direction.Right, ⟨40, 40, 20, ⟨9, 9⟩⟩, 0, 3⟩

/-- A drawable state during a window resize: the viewport has shrunk to
100 x 100 pixels (frame length `100*100*4 = 40000` bytes) while the grid
is still 40 x 40 cells of 20 pixels, and one body segment sits at grid
`(0, 2)`, which maps to pixel `(50, 10)` - inside the viewport, so the
segment is not skipped, but its square blit reaches `y = 10 - 11` which
wraps around `u32`. -/
def snekResize : SlitherySnek :=
  ⟨[⟨0, 2⟩], Direction.Right, ⟨40, 40, 20, ⟨9, 9⟩⟩, 0, 3⟩

/-
Helper lemmas characterising one `slither` step, proved by unfolding the
definition and splitting on the food trigger and the growth buffer.
-/

theorem slither_dir_eq (s : SlitherySnek) (choose : List Pos → Pos)
    (d : Option Direction) : (s.slither choose d).dir = resolveDir s.dir d := rfl

theorem slither_food_eq (s : SlitherySnek) (choose : List Pos → Pos)
    (d : Option Direction) :
    (s.slither choose d).world.food_pos =
      if s.world.food_pos = s.body.headI
      then choose (step (resolveDir s.dir d) s.body.headI :: s.body)
      else s.world.food_pos := by
  by_cases h : s.world.food_pos = s.body.headI <;>
    simp [SlitherySnek.slither, h]

theorem slither_buf_eq (s : SlitherySnek) (choose : List Pos → Pos)
    (d : Option Direction) :
    (s.slither choose d).grow_buf =
      if s.world.food_pos = s.body.headI then 2
      else if 0 < s.grow_buf then s.grow_buf - 1 else s.grow_buf := by
  by_cases h : s.world.food_pos = s.body.headI
  · simp [SlitherySnek.slither, h]
  · by_cases h2 : 0 < s.grow_buf <;> simp [SlitherySnek.slither, h, h2]

theorem slither_body_eq (s : SlitherySnek) (choose : List Pos → Pos)
    (d : Option Direction) :
    (s.slither choose d).body =
      if s.world.food_pos = s.body.headI ∨ 0 < s.grow_buf
      then step (resolveDir s.dir d) s.body.headI :: s.body
      else (step (resolveDir s.dir d) s.body.headI :: s.body).dropLast := by
  by_cases h : s.world.food_pos = s.body.headI
  · simp [SlitherySnek.slither, h]
  · by_cases h2 : 0 < s.grow_buf <;> simp [SlitherySnek.slither, h, h2]

theorem slither_world_width (s : SlitherySnek) (choose : List Pos → Pos)
    (d : Option Direction) : (s.slither choose d).world.width = s.world.width := by
  by_cases h : s.world.food_pos = s.body.headI <;> simp [SlitherySnek.slither, h]

theorem slither_world_height (s : SlitherySnek) (choose : List Pos → Pos)
    (d : Option Direction) : (s.slither choose d).world.height = s.world.height := by
  by_cases h : s.world.food_pos = s.body.headI <;> simp [SlitherySnek.slither, h]

theorem slither_headI_eq (s : SlitherySnek) (choose : List Pos → Pos)
    (d : Option Direction) (h : s.body ≠ []) :
    (s.slither choose d).body.headI = step (resolveDir s.dir d) s.body.headI := by
  rw [slither_body_eq]
  cases hb : s.body with
  | nil => exact absurd hb h
  | cons p rest =>
    split
    · rfl
    · simp [List.dropLast]

theorem slither_body_ne_nil (s : SlitherySnek) (choose : List Pos → Pos)
    (d : Option Direction) (h : s.body ≠ []) : (s.slither choose d).body ≠ [] := by
  rw [slither_body_eq]
  cases hb : s.body with
  | nil => exact absurd hb h
  | cons p rest =>
    split
    · simp
    · simp [List.dropLast]

theorem slither_length_eq (s : SlitherySnek) (choose : List Pos → Pos)
    (d : Option Direction) :
    (s.slither choose d).body.length =
      if s.world.food_pos = s.body.headI ∨ 0 < s.grow_buf
      then s.body.length + 1 else s.body.length := by
  rw [slither_body_eq]
  split
  · simp
  · simp [List.length_dropLast]

theorem slither_second_eq (s : SlitherySnek) (choose : List Pos → Pos)
    (d : Option Direction) (h : 2 ≤ s.body.length) :
    (s.slither choose d).body.get? 1 = some s.body.headI := by
  obtain ⟨p, t, hb⟩ : ∃ p t, s.body = p :: t := by
    cases hb : s.body with
    | nil => rw [hb] at h; simp at h
    | cons p t => exact ⟨p, t, rfl⟩
  obtain ⟨q, rest, ht⟩ : ∃ q rest, t = q :: rest := by
    cases ht : t with
    | nil => rw [hb, ht] at h; simp at h
    | cons q rest => exact ⟨q, rest, rfl⟩
  rw [slither_body_eq, hb, ht]
  split
  · rfl
  · rfl

theorem resolveDir_opposite (cur : Direction) :
    resolveDir cur (some (opposite cur)) = cur := by
  cases cur <;> rfl

/-
Helper lemmas about the `place_food` retry loop and the tick trace.
-/

theorem sampleLoop_mem (bl : List Pos) (stream : Nat → Pos) :
    ∀ (n k : Nat) (p : Pos), sampleLoop bl stream k n = some p →
      p ∉ bl ∧ ∃ i, stream i = p := by
  intro n
  induction n with
  | zero => intro k p h; simp [sampleLoop] at h
  | succ n ih =>
    intro k p h
    rw [sampleLoop] at h
    split at h
    · exact ih (k + 1) p h
    · rename_i hmem
      cases h
      exact ⟨hmem, k, rfl⟩

theorem sampleLoop_hit (bl : List Pos) (stream : Nat → Pos) :
    ∀ (n k : Nat), (∃ j, j < n ∧ stream (k + j) ∉ bl) →
      ∃ p, sampleLoop bl stream k n = some p ∧ p ∉ bl := by
  intro n
  induction n with
  | zero =>
    intro k hj
    obtain ⟨j, hj, _⟩ := hj
    omega
  | succ n ih =>
    intro k hj
    obtain ⟨j, hjn, hgood⟩ := hj
    by_cases hm : stream k ∈ bl
    · have hj0 : j ≠ 0 := by
        rintro rfl
        exact hgood (by simpa using hm)
      obtain ⟨p, hp, hpbl⟩ := ih (k + 1) ⟨j - 1, by omega, by
        have : k + 1 + (j - 1) = k + j := by omega
        rw [this]; exact hgood⟩
      exact ⟨p, by rw [sampleLoop, if_pos hm]; exact hp, hpbl⟩
    · exact ⟨stream k, by rw [sampleLoop, if_neg hm], hm⟩

theorem exists_free_cell (w : World) (bl : List Pos)
    (hcard : bl.toFinset.card < (gridCells w).card) :
    ∃ p, p ∈ gridCells w ∧ p ∉ bl := by
  by_contra hc
  push_neg at hc
  have hsub : gridCells w ⊆ bl.toFinset := fun p hp =>
    List.mem_toFinset.mpr (hc p hp)
  have := Finset.card_le_card hsub
  omega

theorem place_food_core (w : World) (bl : List Pos) (stream : Nat → Pos)
    (fuel : Nat) (w' : World) (hs : ∀ i, inGenRange w (stream i))
    (h : w.place_food bl stream fuel = some w') :
    w'.food_pos ∉ bl ∧ inGenRange w w'.food_pos ∧
      w'.width = w.width ∧ w'.height = w.height := by
  unfold World.place_food at h
  cases hsl : sampleLoop bl stream 0 fuel with
  | none => rw [hsl] at h; simp at h
  | some p =>
    rw [hsl, Option.map_some'] at h
    cases h
    obtain ⟨hpbl, i, hi⟩ := sampleLoop_mem bl stream fuel 0 p hsl
    exact ⟨hpbl, hi ▸ hs i, rfl, rfl⟩

theorem inGenRange_dims (w w' : World) (p : Pos) (hw : w'.width = w.width)
    (hh : w'.height = w.height) : inGenRange w p → inGenRange w' p := by
  unfold inGenRange
  rw [hw, hh]
  exact id

theorem trace_len_buf (choose : List Pos → Pos) :
    ∀ (ds : List (Option Direction)) (s : SlitherySnek), s.body ≠ [] →
      cleanGrowth choose s ds = true →
      (slitherTrace choose s ds).body.length + (slitherTrace choose s ds).grow_buf =
        s.body.length + s.grow_buf + 3 * eatenCount choose s ds := by
  intro ds
  induction ds with
  | nil =>
    intro s _ _
    simp [slitherTrace, eatenCount]
  | cons d ds ih =>
    intro s hne hclean
    rw [cleanGrowth, Bool.and_eq_true] at hclean
    obtain ⟨hhead, hrest⟩ := hclean
    have hne' := slither_body_ne_nil s choose d hne
    have H := ih (s.slither choose d) hne' hrest
    rw [slitherTrace, eatenCount, H]
    have hlen := slither_length_eq s choose d
    have hbuf := slither_buf_eq s choose d
    by_cases htrig : s.world.food_pos = s.body.headI
    · have hbuf0 : s.grow_buf = 0 := by
        rw [Bool.or_eq_true, Bool.not_eq_true', decide_eq_false_iff_not,
          decide_eq_true_eq] at hhead
        cases hhead with
        | inl hcon => exact absurd htrig hcon
        | inr hz => exact hz
      rw [if_pos htrig] at hbuf
      rw [if_pos (Or.inl htrig)] at hlen
      rw [hlen, hbuf, if_pos htrig, hbuf0]
      ring
    · rw [if_neg htrig] at hbuf
      rw [if_neg htrig]
      by_cases hgb : 0 < s.grow_buf
      · rw [if_pos (Or.inr hgb)] at hlen
        rw [if_pos hgb] at hbuf
        rw [hlen, hbuf]
        omega
      · rw [if_neg (by
          rintro (hcon | hcon)
          · exact htrig hcon
          · exact hgb hcon)] at hlen
        rw [if_neg hgb] at hbuf
        rw [hlen, hbuf]
        omega

theorem pushInput_length_le (q : List (Option Direction)) (d : Option Direction) :
    (pushInput q d).length ≤ 2 := by
  unfold pushInput
  split
  · rename_i hcond
    simp only [List.length_append, List.length_singleton]
    omega
  · simp

theorem foldl_pushInput_length (ds : List (Option Direction)) :
    ∀ q : List (Option Direction), q.length ≤ 2 →
      (List.foldl pushInput q ds).length ≤ 2 := by
  induction ds with
  | nil => intro q h; simpa using h
  | cons d ds ih =>
    intro q _
    exact ih (pushInput q d) (pushInput_length_le q d)

/-
Claim theorems.
-/

/-- Claim C1, counterexample: in the startup state with the food at
`(3, 0)` - one cell ahead of the head `(2, 0)` - the new head of the tick
equals the food position as it was before the tick, yet the trigger does
not fire: the food is left in place (not repositioned to any chosen
sample) and `grow_buf` stays 0 instead of being set to 3.  The code
compares the food against the head position before the push, i.e. the
cell the head is moving out of, not the cell it is moving into. -/
theorem slither_newhead_food_no_trigger :
    step (resolveDir snek0.dir none) snek0.body.headI = snek0.world.food_pos ∧
    snek0.body.headI ≠ snek0.world.food_pos ∧
    (snek0.slither chConst none).world.food_pos = snek0.world.food_pos ∧
    (snek0.slither chConst none).grow_buf = 0 ∧
    chConst (step (resolveDir snek0.dir none) snek0.body.headI :: snek0.body) ≠
      snek0.world.food_pos := by decide

/-- Claim C1 (amended): the food trigger fires exactly when the head
position before the movement of this tick (the cell the head moves out
of) equals the food position before the tick; when it fires, the food is
repositioned via `place_food` with the post-push body (new head included)
as exclusion set and `grow_buf` is set to 3, which the decrement step of
the same tick brings to 2; on every other tick the food is unchanged and
`grow_buf` is changed only by the decrement step. -/
theorem slither_food_trigger_prev_head (choose : List Pos → Pos)
    (s : SlitherySnek) (d : Option Direction) (_h : s.body ≠ []) :
    (s.world.food_pos = s.body.headI →
      (s.slither choose d).world.food_pos =
        choose (step (resolveDir s.dir d) s.body.headI :: s.body) ∧
      (s.slither choose d).grow_buf = 2) ∧
    (s.world.food_pos ≠ s.body.headI →
      (s.slither choose d).world.food_pos = s.world.food_pos ∧
      (s.slither choose d).grow_buf =
        if 0 < s.grow_buf then s.grow_buf - 1 else s.grow_buf) := by
  constructor
  · intro ht
    rw [slither_food_eq, slither_buf_eq, if_pos ht, if_pos ht]
    exact ⟨rfl, rfl⟩
  · intro ht
    rw [slither_food_eq, slither_buf_eq, if_neg ht, if_neg ht]
    exact ⟨rfl, rfl⟩

/-- Witness for `slither_food_trigger_prev_head`: after one tick from the
startup state the head sits on the food, so the next tick fires the
trigger, repositions the food to the chosen sample and leaves
`grow_buf = 2`. -/
theorem slither_food_trigger_prev_head_w :
    ((snek0.slither chConst none).slither chConst none).world.food_pos =
      chConst (step (resolveDir (snek0.slither chConst none).dir none)
        (snek0.slither chConst none).body.headI ::
          (snek0.slither chConst none).body) ∧
    ((snek0.slither chConst none).slither chConst none).grow_buf = 2 :=
  (slither_food_trigger_prev_head chConst (snek0.slither chConst none) none
    (by decide)).1 (by decide)

/-- Claim C3, counterexample: a snake whose head sits on the boundary
cell `(-20, 0)` of the 40 x 40 grid is outside the open region
`(-20, 20) x (-20, 20)` claimed by the spec, and has no self-collision,
yet `check_dead` returns `false`: the code checks the half-open ranges
`-20..20`, which contain `-20`. -/
theorem check_dead_open_bounds_ce :
    snekBoundary.body ≠ [] ∧
    snekBoundary.check_dead = false ∧
    ¬ specOpenBounds snekBoundary.world snekBoundary.body.headI ∧
    ∀ p ∈ snekBoundary.body.tail, p ≠ snekBoundary.body.headI := by decide

/-- Claim C3 (amended): for every snake with non-empty body, `check_dead`
returns true iff the head lies outside the half-open region
`[-width/2, width/2) x [-height/2, height/2)` in grid units, or the head
equals the position of some other body segment.  The function is a pure
query (it takes `&self` in the source and is a plain function here). -/
theorem check_dead_iff_halfopen (s : SlitherySnek) (_h : s.body ≠ []) :
    s.check_dead = true ↔
      ¬(-((s.world.width : Int) / 2) ≤ s.body.headI.x ∧
          s.body.headI.x < (s.world.width : Int) / 2) ∨
      ¬(-((s.world.height : Int) / 2) ≤ s.body.headI.y ∧
          s.body.headI.y < (s.world.height : Int) / 2) ∨
      ∃ p ∈ s.body.tail, p = s.body.headI := by
  simp only [SlitherySnek.check_dead]
  split
  · rename_i hcond
    constructor
    · intro _
      rcases hcond with h1 | h2
      · exact Or.inl h1
      · exact Or.inr (Or.inl h2)
    · intro _
      rfl
  · rename_i hcond
    push_neg at hcond
    simp only [List.any_eq_true, decide_eq_true_eq]
    constructor
    · intro he
      exact Or.inr (Or.inr he)
    · rintro (hca | hcb | he)
      · exact absurd hcond.1 hca
      · exact absurd hcond.2 hcb
      · exact he

/-- Witness for `check_dead_iff_halfopen` at the startup snake. -/
theorem check_dead_iff_halfopen_w :
    snek0.check_dead = true ↔
      ¬(-((snek0.world.width : Int) / 2) ≤ snek0.body.headI.x ∧
          snek0.body.headI.x < (snek0.world.width : Int) / 2) ∨
      ¬(-((snek0.world.height : Int) / 2) ≤ snek0.body.headI.y ∧
          snek0.body.headI.y < (snek0.world.height : Int) / 2) ∨
      ∃ p ∈ snek0.body.tail, p = snek0.body.headI :=
  check_dead_iff_halfopen snek0 (by decide)

/-- Claim C5 (confirmed): requesting the exact opposite of the current
direction leaves the direction unchanged and the head still moves one
unit in the current direction; an absent request also keeps the current
direction. -/
theorem slither_reverse_ignored (choose : List Pos → Pos) (s : SlitherySnek)
    (h : s.body ≠ []) :
    (s.slither choose (some (opposite s.dir))).dir = s.dir ∧
    (s.slither choose (some (opposite s.dir))).body.headI =
      step s.dir s.body.headI ∧
    (s.slither choose none).dir = s.dir ∧
    (s.slither choose none).body.headI = step s.dir s.body.headI := by
  refine ⟨?_, ?_, ?_, ?_⟩
  · rw [slither_dir_eq, resolveDir_opposite]
  · rw [slither_headI_eq _ _ _ h, resolveDir_opposite]
  · rw [slither_dir_eq]
    rfl
  · rw [slither_headI_eq _ _ _ h]
    rfl

/-- Witness for `slither_reverse_ignored` at the startup snake (moving
Right, requesting Left). -/
theorem slither_reverse_ignored_w :
    (snek0.slither chConst (some (opposite snek0.dir))).dir = snek0.dir ∧
    (snek0.slither chConst (some (opposite snek0.dir))).body.headI =
      step snek0.dir snek0.body.headI ∧
    (snek0.slither chConst none).dir = snek0.dir ∧
    (snek0.slither chConst none).body.headI = step snek0.dir snek0.body.headI :=
  slither_reverse_ignored chConst snek0 (by decide)

/-- Claim C10, counterexample: for a snake whose (non-empty) body is a
single segment and whose growth buffer is empty, the tick pops the old
head right after pushing the new one, so the previous head does not
become the second body segment - there is no second segment. -/
theorem slither_head_second_ce :
    snekSingle.body ≠ [] ∧
    (snekSingle.slither chConst none).body.get? 1 = none := by decide

/-- Claim C10 (amended): for every snake with at least two body segments,
one tick moves the head by exactly one grid unit along exactly one axis,
and the previous head becomes the second body segment. -/
theorem slither_head_step (choose : List Pos → Pos) (s : SlitherySnek)
    (d : Option Direction) (h : 2 ≤ s.body.length) :
    ((s.slither choose d).body.headI.x - s.body.headI.x).natAbs +
      ((s.slither choose d).body.headI.y - s.body.headI.y).natAbs = 1 ∧
    (s.slither choose d).body.get? 1 = some s.body.headI := by
  have hne : s.body ≠ [] := by
    intro hb
    rw [hb] at h
    simp at h
  constructor
  · rw [slither_headI_eq _ _ _ hne]
    cases resolveDir s.dir d <;> simp [step]
  · exact slither_second_eq s choose d h

/-- Witness for `slither_head_step` at the startup snake. -/
theorem slither_head_step_w :
    ((snek0.slither chConst none).body.headI.x - snek0.body.headI.x).natAbs +
      ((snek0.slither chConst none).body.headI.y - snek0.body.headI.y).natAbs = 1 ∧
    (snek0.slither chConst none).body.get? 1 = some snek0.body.headI :=
  slither_head_step chConst snek0 none (by decide)

/-- Claim C2, counterexample: at construction time, `World::new` can
assign a food position on the boundary cell `(-20, 0)` of the 40 x 40
grid - a legitimate `gen_range(-20..20)` sample, since the Rust range
includes its lower bound - which is not inside the open region
`(-20, 20) x (-20, 20)` stated by the spec. -/
theorem food_open_bounds_ce :
    World.new 40 40 20 (fun _ => ⟨-20, 0⟩) 1 = some ⟨40, 40, 20, ⟨-20, 0⟩⟩ ∧
    inGenRange ⟨40, 40, 20, ⟨-20, 0⟩⟩ ⟨-20, 0⟩ ∧
    ¬ specOpenBounds ⟨40, 40, 20, ⟨-20, 0⟩⟩ ⟨-20, 0⟩ := by decide

/-- Claim C2 (amended): every operation assigning `food_pos` establishes
that it lies within the half-open grid bounds
`[-width/2, width/2) x [-height/2, height/2)` (the `gen_range` contract)
and is not in the exclusion list passed at the moment of placement: for
`place_food` the provided blacklist, for `World::new` the empty list (no
snake exists yet), and for the reposition inside `slither` the post-push
body.  In the third conjunct the oracle `choose` is constrained only at
the one blacklist `slither` actually passes - the post-push body - and
the hypotheses on that sample (avoids the passed blacklist, honours the
`gen_range` contract) are exactly what the first conjunct establishes
for every actual `place_food` return. -/
theorem food_assign_valid :
    (∀ (w : World) (bl : List Pos) (stream : Nat → Pos) (fuel : Nat) (w' : World),
      (∀ i, inGenRange w (stream i)) → w.place_food bl stream fuel = some w' →
      w'.food_pos ∉ bl ∧ inGenRange w w'.food_pos) ∧
    (∀ (width height bs fuel : Nat) (stream : Nat → Pos) (w' : World),
      (∀ i, inGenRange ⟨width, height, bs, ⟨0, 0⟩⟩ (stream i)) →
      World.new width height bs stream fuel = some w' →
      inGenRange w' w'.food_pos) ∧
    (∀ (choose : List Pos → Pos) (s : SlitherySnek) (d : Option Direction),
      choose (step (resolveDir s.dir d) s.body.headI :: s.body) ∉
        (step (resolveDir s.dir d) s.body.headI :: s.body) →
      inGenRange s.world
        (choose (step (resolveDir s.dir d) s.body.headI :: s.body)) →
      s.world.food_pos = s.body.headI →
      (s.slither choose d).world.food_pos ∉ (s.slither choose d).body ∧
      inGenRange (s.slither choose d).world
        (s.slither choose d).world.food_pos) := by
  refine ⟨fun w bl stream fuel w' hs h => ?_,
    fun width height bs fuel stream w' hs h => ?_,
    fun choose s d hnot hin ht => ?_⟩
  · have hc := place_food_core w bl stream fuel w' hs h
    exact ⟨hc.1, hc.2.1⟩
  · unfold World.new at h
    have hc := place_food_core ⟨width, height, bs, ⟨0, 0⟩⟩ [] stream fuel w' hs h
    exact inGenRange_dims _ w' _ hc.2.2.1 hc.2.2.2 hc.2.1
  · have hfood := slither_food_eq s choose d
    rw [if_pos ht] at hfood
    have hbody := slither_body_eq s choose d
    rw [if_pos (Or.inl ht)] at hbody
    constructor
    · rw [hfood, hbody]
      exact hnot
    · rw [hfood]
      exact inGenRange_dims s.world _ _ (slither_world_width s choose d)
        (slither_world_height s choose d) hin

/-- Witness for `food_assign_valid`, exercising all three conjuncts: a
`place_food` call on a 6 x 6 world excluding `(0, 0)` accepts the sample
`(2, 2)`; a 4 x 4 world built with the sample `(1, 1)` has its food
inside the half-open bounds; and the in-game reposition on the tick
after one step from the startup state (head on the food at `(3, 0)`,
chosen sample `(10, 10)`) leaves the food off the whole post-tick body
and in bounds. -/
theorem food_assign_valid_w :
    ((⟨6, 6, 1, ⟨2, 2⟩⟩ : World).food_pos ∉ [(⟨0, 0⟩ : Pos)] ∧
      inGenRange ⟨6, 6, 1, ⟨0, 0⟩⟩ (⟨6, 6, 1, ⟨2, 2⟩⟩ : World).food_pos) ∧
    inGenRange (⟨4, 4, 1, ⟨1, 1⟩⟩ : World) (⟨4, 4, 1, ⟨1, 1⟩⟩ : World).food_pos ∧
    (((snek0.slither chConst none).slither chConst none).world.food_pos ∉
        ((snek0.slither chConst none).slither chConst none).body ∧
      inGenRange ((snek0.slither chConst none).slither chConst none).world
        ((snek0.slither chConst none).slither chConst none).world.food_pos) :=
  ⟨food_assign_valid.1 ⟨6, 6, 1, ⟨0, 0⟩⟩ [⟨0, 0⟩] (fun _ => ⟨2, 2⟩) 1
      ⟨6, 6, 1, ⟨2, 2⟩⟩
      (fun _ => (by decide : inGenRange ⟨6, 6, 1, ⟨0, 0⟩⟩ ⟨2, 2⟩)) (by decide),
    food_assign_valid.2.1 4 4 1 1 (fun _ => ⟨1, 1⟩) ⟨4, 4, 1, ⟨1, 1⟩⟩
      (fun _ => (by decide : inGenRange ⟨4, 4, 1, ⟨0, 0⟩⟩ ⟨1, 1⟩)) (by decide),
    food_assign_valid.2.2 chConst (snek0.slither chConst none) none
      (by decide) (by decide) (by decide)⟩

/-- Claim C4, counterexample: a 4-tick trace from the startup state with
no direction inputs, where the food is first at `(3, 0)` and is then
repositioned two cells ahead of the head, eats twice; the second trigger
fires while `grow_buf = 1` and overwrites the pending growth with 3, so
the final length is 6 while the claimed formula
`initial_size + 3 * eaten - grow_buf` gives `3 + 6 - 2 = 7`. -/
theorem snake_length_formula_ce :
    snek0.body ≠ [] ∧ snek0.grow_buf = 0 ∧
    snek0.body.length = snek0.initial_size ∧
    nonReversing chooseCE snek0 [none, none, none, none] = true ∧
    (slitherTrace chooseCE snek0 [none, none, none, none]).body.length ≠
      snek0.initial_size +
        3 * eatenCount chooseCE snek0 [none, none, none, none] -
        (slitherTrace chooseCE snek0 [none, none, none, none]).grow_buf := by
  decide

/-- Claim C4 (amended): for every tick trace starting from a snake with
non-empty body, empty growth buffer and `body.length = initial_size`,
whose inputs never request the reverse of the current direction, and
along which no food trigger fires while growth is still pending
(`cleanGrowth`), the body length after the trace equals
`initial_size + 3 * eaten - grow_buf`. -/
theorem snake_length_formula_clean (choose : List Pos → Pos)
    (s : SlitherySnek) (ds : List (Option Direction)) (h1 : s.body ≠ [])
    (h2 : s.grow_buf = 0) (h3 : s.body.length = s.initial_size)
    (_h4 : nonReversing choose s ds = true)
    (h5 : cleanGrowth choose s ds = true) :
    (slitherTrace choose s ds).body.length =
      s.initial_size + 3 * eatenCount choose s ds -
        (slitherTrace choose s ds).grow_buf := by
  have H := trace_len_buf choose ds s h1 h5
  omega

/-- Witness for `snake_length_formula_clean`: a clean 2-tick trace eating
once ends with length `4 = 3 + 3 - 2`. -/
theorem snake_length_formula_clean_w :
    (slitherTrace chConst snek0 [none, none]).body.length =
      snek0.initial_size + 3 * eatenCount chConst snek0 [none, none] -
        (slitherTrace chConst snek0 [none, none]).grow_buf :=
  snake_length_formula_clean chConst snek0 [none, none] (by decide) (by decide)
    (by decide) (by decide) (by decide)

/-- Claim C6 (confirmed): a push appends its entry when the queue has
fewer than 2 entries and does not already contain that exact entry, and
otherwise clears the queue and appends the single new entry; the queue
length never exceeds 2 after any sequence of pushes from the empty queue,
and pushing a third distinct entry onto a 2-entry queue leaves exactly
the new entry queued. -/
theorem pushInput_spec :
    (∀ (q : List (Option Direction)) (d : Option Direction),
      (q.length < 2 ∧ d ∉ q → pushInput q d = q ++ [d]) ∧
      (¬(q.length < 2 ∧ d ∉ q) → pushInput q d = [d]) ∧
      (pushInput q d).length ≤ 2) ∧
    (∀ ds : List (Option Direction),
      (List.foldl pushInput [] ds).length ≤ 2) ∧
    (∀ (q : List (Option Direction)) (d : Option Direction),
      q.length = 2 → d ∉ q → pushInput q d = [d]) := by
  refine ⟨fun q d => ⟨?_, ?_, pushInput_length_le q d⟩,
    fun ds => foldl_pushInput_length ds [] (by simp),
    fun q d h1 h2 => ?_⟩
  · intro hc
    unfold pushInput
    rw [if_pos hc]
  · intro hc
    unfold pushInput
    rw [if_neg hc]
  · unfold pushInput
    rw [if_neg (by
      rintro ⟨hl, _⟩
      omega)]

/-- Witness for `pushInput_spec`: the example from the spec -
`push(Up)`, `push(Left)` fills the queue, then `push(Down)` clears it
and leaves just `Down`. -/
theorem pushInput_spec_w :
    pushInput [some Direction.Up, some Direction.Left] (some Direction.Down) =
      [some Direction.Down] ∧
    (List.foldl pushInput []
      [some Direction.Up, some Direction.Left, some Direction.Down]).length ≤ 2 :=
  ⟨pushInput_spec.2.2 [some Direction.Up, some Direction.Left]
      (some Direction.Down) (by decide) (by decide),
    pushInput_spec.2.1
      [some Direction.Up, some Direction.Left, some Direction.Down]⟩

/-- Claim C7, counterexample: with the empty exclusion set (size 0, far
below the 1600 grid cells) `place_food` can assign the boundary cell
`(-20, 0)` - a legitimate `gen_range(-20..20)` sample - which is not
inside the open region `(-20, 20) x (-20, 20)` stated by the spec. -/
theorem place_food_open_bounds_ce :
    World.place_food ⟨40, 40, 20, ⟨0, 0⟩⟩ [] (fun _ => ⟨-20, 0⟩) 1 =
      some ⟨40, 40, 20, ⟨-20, 0⟩⟩ ∧
    inGenRange ⟨40, 40, 20, ⟨0, 0⟩⟩ ⟨-20, 0⟩ ∧
    ¬ specOpenBounds ⟨40, 40, 20, ⟨0, 0⟩⟩ ⟨-20, 0⟩ := by decide

/-- Claim C7 (amended): whenever `place_food` returns (for any exclusion
list, any sample stream honouring the `gen_range` contract and any
fuel), the assigned food position is not a member of the exclusion list
and lies within the half-open bounds
`[-width/2, width/2) x [-height/2, height/2)`. -/
theorem place_food_valid (w : World) (bl : List Pos) (stream : Nat → Pos)
    (fuel : Nat) (w' : World) (hs : ∀ i, inGenRange w (stream i))
    (h : w.place_food bl stream fuel = some w') :
    w'.food_pos ∉ bl ∧ inGenRange w w'.food_pos := by
  have hc := place_food_core w bl stream fuel w' hs h
  exact ⟨hc.1, hc.2.1⟩

/-- Witness for `place_food_valid`: excluding `(0, 0)`, the sample
`(1, 1)` is accepted and in bounds. -/
theorem place_food_valid_w :
    (⟨40, 40, 20, ⟨1, 1⟩⟩ : World).food_pos ∉ [(⟨0, 0⟩ : Pos)] ∧
    inGenRange w40 (⟨40, 40, 20, ⟨1, 1⟩⟩ : World).food_pos :=
  place_food_valid w40 [⟨0, 0⟩] (fun _ => ⟨1, 1⟩) 1 ⟨40, 40, 20, ⟨1, 1⟩⟩
    (fun _ => (by decide : inGenRange w40 ⟨1, 1⟩)) (by decide)

/-- Claim C8: the snake-body blit of `SlitherySnek::draw` goes through
`access_pixel(..).expect(..)`, which panics on a missed write instead of
silently skipping it.  On a 100 x 100 viewport (a transient size during
a resize, frame length `40000` bytes) with a body segment at grid
`(0, 2)`, the segment passes the viewport guard (pixel `(50, 10)`) but
the square blit reaches row `10 - 11`, which wraps around `u32` and
misses the frame, so the draw fails - while `World::draw`, whose writes
all use the skipping `and_then` pattern, still succeeds on the same
viewport.  This matches the `TODO seg faults when resizing window`
comment in the source and contradicts the claimed silent-skip policy. -/
theorem draw_panics_on_resized_viewport :
    snekResize.draw 100 100 40000 = none ∧
    World.draw snekResize.world 100 100 40000 = some () := by decide

/-- Claim C9 (confirmed): when the exclusion list covers fewer distinct
positions than the grid has cells, a non-excluded cell exists, and the
retry loop of `place_food` terminates as soon as the sample stream
produces any non-excluded sample (which uniform sampling does with
probability 1, since a non-excluded cell exists): fuel `i + 1` suffices
when sample `i` is non-excluded, and the resulting food is valid. -/
theorem place_food_terminates (w : World) (bl : List Pos)
    (stream : Nat → Pos) (hcard : bl.toFinset.card < (gridCells w).card) :
    (∃ p, p ∈ gridCells w ∧ p ∉ bl) ∧
    ∀ i, stream i ∉ bl →
      ∃ w', w.place_food bl stream (i + 1) = some w' ∧ w'.food_pos ∉ bl := by
  refine ⟨exists_free_cell w bl hcard, fun i hi => ?_⟩
  obtain ⟨p, hp, hpbl⟩ :=
    sampleLoop_hit bl stream (i + 1) 0 ⟨i, by omega, by simpa using hi⟩
  refine ⟨{ w with food_pos := p }, ?_, hpbl⟩
  unfold World.place_food
  rw [hp]
  rfl

/-- Witness for `place_food_terminates` on a 2 x 2 world with empty
exclusion list and a constant sample stream. -/
theorem place_food_terminates_w :
    (∃ p, p ∈ gridCells ⟨2, 2, 1, ⟨0, 0⟩⟩ ∧ p ∉ ([] : List Pos)) ∧
    ∃ w', World.place_food ⟨2, 2, 1, ⟨0, 0⟩⟩ [] (fun _ => ⟨0, 0⟩) 1 =
        some w' ∧ w'.food_pos ∉ ([] : List Pos) :=
  ⟨(place_food_terminates ⟨2, 2, 1, ⟨0, 0⟩⟩ [] (fun _ => ⟨0, 0⟩)
      (by decide)).1,
    (place_food_terminates ⟨2, 2, 1, ⟨0, 0⟩⟩ [] (fun _ => ⟨0, 0⟩)
      (by decide)).2 0 (by decide)⟩
